import Mathlib

/-!
Shallow embedding of the photo ingestion and deletion pipeline of the
photography-portfolio application.

Conventions:
* bytes are `Nat` (the byte width is irrelevant to every property proved here);
* Python strings are `String` when only compared, `List Char` when their
  characters are transformed (sanitize_file);
* external pure functions (hashlib.sha256 hexdigest, the PIL re-encoders) are
  passed in as function parameters: the code treats them as opaque byte-to-byte
  or byte-to-string transforms;
* the randomness of uuid.uuid4().hex[:8] is made explicit: the 8-character
  suffix is a parameter of `sanitize_file`;
* the local (development) object store is a path-indexed association list; a
  write is an overwrite, a delete removes the first entry with the given path.
-/

namespace Portfolio

/-- A byte of an upload body or a stored blob. -/
abbrev Byte := Nat

/-- One row of the `photo` table, field for field as in
src/src/models/schema.py (class Photo). -/
structure Photo where
  id : Nat
  title : String
  hash : String
  file_name : String
  original_path : String
  thumbnail_path : String
  collection : String
  deriving DecidableEq

/-- One `mapped_column` declaration of schema.py: name, String(length=...)
bound, nullable flag, unique flag, primary-key flag. -/
structure ColumnSpec where
  name : String
  maxLength : Option Nat
  nullable : Bool
  unique : Bool
  primaryKey : Bool
  deriving DecidableEq

/-- The columns of the `photo` table exactly as declared in
src/src/models/schema.py: `hash` String(64) unique, `file_name` String(50)
unique, `original_path`/`thumbnail_path` String(300) unique, and `collection`
String(100) declared with unique=True as well. -/
def photoTable : List ColumnSpec :=
  [⟨"id", none, false, false, true⟩,
   ⟨"title", some 50, false, false, false⟩,
   ⟨"hash", some 64, false, true, false⟩,
   ⟨"file_name", some 50, false, true, false⟩,
   ⟨"original_path", some 300, false, true, false⟩,
   ⟨"thumbnail_path", some 300, false, true, false⟩,
   ⟨"collection", some 100, false, true, false⟩]

/-- The declared String(length=...) bound of the `file_name` column. -/
def photoFileNameMaxLen : Nat :=
  (((photoTable.find? (fun c => c.name == "file_name")).bind ColumnSpec.maxLength).getD 0)

/-- The value a Photo row carries in a named string column (`id` is the
integer key, not a string column). -/
def photoColumnValue (p : Photo) (c : String) : Option String :=
  if c = "title" then some p.title
  else if c = "hash" then some p.hash
  else if c = "file_name" then some p.file_name
  else if c = "original_path" then some p.original_path
  else if c = "thumbnail_path" then some p.thumbnail_path
  else if c = "collection" then some p.collection
  else none

/-- Commit of a new row raises IntegrityError exactly when an already
committed row matches it on some column declared unique in `photoTable`. -/
def insertConflict (catalog : List Photo) (p : Photo) : Bool :=
  catalog.any (fun q => photoTable.any (fun col =>
    col.unique && (photoColumnValue q col.name == photoColumnValue p col.name)))

/-! ### ContentAddresser: sanitize_file (src/src/services/admin_service.py) -/

/-- The final component of a POSIX path: working from the right, trailing
separators are dropped and the characters up to the next separator are kept
(pathlib `Path(...).name`; the special components "." and ".." are not
modelled, no upload filename is one). -/
def pyName (s : List Char) : List Char :=
  ((s.reverse.dropWhile (fun c => c = '/')).takeWhile (fun c => c ≠ '/')).reverse

/-- Index of the last dot of a component, if any. -/
def lastDotIdx (s : List Char) : Option Nat :=
  match s.reverse.indexOf? '.' with
  | none => none
  | some i => some (s.length - 1 - i)

/-- Pathlib `Path(...).stem`: the name with its suffix removed, where the
suffix starts at the last dot provided that dot is neither the first nor the
last character of the name. -/
def pyStem (s : List Char) : List Char :=
  match lastDotIdx (pyName s) with
  | none => pyName s
  | some i =>
    if 0 < i ∧ i + 1 < (pyName s).length then (pyName s).take i else pyName s

/-- The characters uuid4().hex can produce. -/
def isHexChar (c : Char) : Bool :=
  "0123456789abcdef".data.contains c

/-- The character map of `stem.replace(" ", "_")`: only the space character
U+0020 is replaced. -/
def spaceToUnderscore (c : Char) : Char :=
  if c = ' ' then '_' else c

/-- AdminService.sanitize_file: stem of the filename, spaces replaced by
underscores, truncated to 50 characters, then an underscore, the 8-character
random suffix (uuid4().hex[:8], passed explicitly) and the fixed ".jpeg"
extension. -/
def sanitize_file (file_name : List Char) (suffix : List Char) : List Char :=
  ((pyStem file_name).map spaceToUnderscore).take 50 ++ ('_' :: suffix) ++ ".jpeg".data

/-! ### PhotoValidator (src/src/services/admin_service.py) -/

/-- The fixed read size of check_file_size: 1024 * 1024 bytes. -/
def chunkSize : Nat := 1024 * 1024

/-- The exceptions the validator raises, with their messages. -/
inductive PyError where
  | valueError (msg : String)
  | imageTooLarge (msg : String)
  | imageDoesNotExist (msg : String)
  deriving DecidableEq

/-- The read loop of PhotoValidator.check_file_size: reads the body
`chunkSize` bytes at a time, keeps the running total, raises ImageTooLarge the
moment the total exceeds max_size, collects the chunks otherwise; a first-ever
empty read with nothing accumulated raises ImageDoesNotExist.  (For a regular
stream, `read` returns an empty chunk exactly when the data is exhausted.) -/
def readChunks (data : List Byte) (total : Nat) (max_size : Nat) :
    Except PyError (List (List Byte)) :=
  if hd : data = [] then
    if total = 0 then .error (.imageDoesNotExist "Image has no data") else .ok []
  else
    let chunk := data.take chunkSize
    if total + chunk.length > max_size then .error (.imageTooLarge "Image too large")
    else
      match readChunks (data.drop chunkSize) (total + chunk.length) max_size with
      | .error e => .error e
      | .ok rest => .ok (chunk :: rest)
termination_by data.length
decreasing_by
  simp only [List.length_drop]
  exact Nat.sub_lt (List.length_pos.mpr hd) (by norm_num [chunkSize])

/-- PhotoValidator.check_file_size: the chunks of the read loop joined back
into the full upload buffer. -/
def check_file_size (max_size : Nat) (data : List Byte) : Except PyError (List Byte) :=
  match readChunks data 0 max_size with
  | .error e => .error e
  | .ok chunks => .ok chunks.flatten

/-- The upload as the validator sees it: declared filename, declared content
type (both optional in the web framework), body bytes. -/
structure UploadFileModel where
  filename : Option String
  content_type : Option String
  data : List Byte
  deriving DecidableEq

/-- The content-type allow-list (ValidTypes). -/
def valid_types : List String :=
  ["image/jpeg", "image/jpg", "image/png", "image/webp"]

/-- PhotoValidator.check_exist: `bool(self.file.filename)`. -/
def check_exist (f : UploadFileModel) : Bool :=
  match f.filename with
  | none => false
  | some s => s != ""

/-- PhotoValidator.check_file_type: membership of the declared content type in
the allow-list. -/
def check_file_type (f : UploadFileModel) : Bool :=
  match f.content_type with
  | none => false
  | some t => valid_types.contains t

/-- PhotoValidator.validate: a missing filename or a disallowed content type
both raise the same ValueError("Unsupported file type"); otherwise the size
check runs. -/
def validate (max_size : Nat) (f : UploadFileModel) : Except PyError (List Byte) :=
  if !(check_exist f) || !(check_file_type f) then
    .error (.valueError "Unsupported file type")
  else check_file_size max_size f.data

/-! ### Object store (src/src/dependencies/store.py, local backend) -/

/-- The local object store: blobs indexed by path. -/
abbrev Store := List (String × List Byte)

/-- A local write (`open(path, "wb")` / aiofiles `"wb"`): overwrite the path. -/
def putObject (st : Store) (path : String) (b : List Byte) : Store :=
  (path, b) :: st.filter (fun e => !(e.1 == path))

/-- LocalStore.delete_images: unlink each path in order; a successful unlink
removes the file and records the path under `success`, a FileNotFoundError is
caught and the path is recorded under `errors`.  Returns the remaining files
and the (success, errors) pair. -/
def delete_images (st : Store) (paths : List String) :
    Store × List String × List String :=
  match paths with
  | [] => (st, [], [])
  | p :: rest =>
    if st.any (fun e => e.1 == p) then
      let r := delete_images (st.eraseP (fun e => e.1 == p)) rest
      (r.1, p :: r.2.1, r.2.2)
    else
      let r := delete_images st rest
      (r.1, r.2.1, p :: r.2.2)

/-! ### AdminService.upload_photo (src/src/services/admin_service.py) -/

/-- The catalog and the object store together. -/
structure SysState where
  catalog : List Photo
  store : Store
  deriving DecidableEq

/-- sqlalchemy `.one_or_none()`: none for no row, the row if unique, and the
MultipleResultsFound error otherwise. -/
def one_or_none (l : List Photo) : Except String (Option Photo) :=
  match l with
  | [] => .ok none
  | [p] => .ok (some p)
  | _ => .error "MultipleResultsFound"

/-- How upload_photo can fail. -/
inductive UploadError where
  | duplicatePhoto
  | multipleResults
  | processing (msg : String)
  deriving DecidableEq

/-- AdminService.upload_photo, development backend: hash the bytes, sanitize
the name, raise ValueError("Duplicate Photo") if a row with that hash exists
(before any store write), otherwise write the thumbnail rendition, then the
original rendition, then commit the row (an IntegrityError is re-raised
wrapped by the final `except Exception` clause).  `hashFn` stands for
hashlib.sha256(...).hexdigest(), `thumbFn`/`origFn` for the PIL re-encoders of
_process_image, `suffix` for uuid4().hex[:8], `nextId` for the
catalog-assigned key. -/
def upload_photo (hashFn : List Byte → String) (thumbFn origFn : List Byte → List Byte)
    (title : String) (file_name : List Char) (file_data : List Byte)
    (collection : String) (suffix : List Char) (nextId : Nat) (s : SysState) :
    SysState × Except UploadError Photo :=
  let file_hash := hashFn file_data
  let fname := String.mk (sanitize_file file_name suffix)
  match one_or_none (s.catalog.filter (fun p => p.hash == file_hash)) with
  | .error _ => (s, .error .multipleResults)
  | .ok (some _) => (s, .error .duplicatePhoto)
  | .ok none =>
    let tpath := "uploads/thumbnail/" ++ fname
    let s1 : SysState := { s with store := putObject s.store tpath (thumbFn file_data) }
    let opath := "uploads/original/" ++ fname
    let s2 : SysState := { s1 with store := putObject s1.store opath (origFn file_data) }
    let photo : Photo := ⟨nextId, title, file_hash, fname, opath, tpath, collection⟩
    if insertConflict s2.catalog photo then
      (s2, .error (.processing "IntegrityError"))
    else
      ({ s2 with catalog := s2.catalog ++ [photo] }, .ok photo)

/-! ### The delete route (src/src/routers/admin.py, delete_photos) -/

/-- The four ways the delete handler answers: the 400 "No photos selected"
HTTPException, the 500 "Photo not found in db" HTTPException, the error
dictionary listing the paths that failed to delete, and the success
dictionary. -/
inductive RouterDeleteResult where
  | badRequest
  | notFound500
  | errorReport (errs : List String)
  | ok200
  deriving DecidableEq

/-- PhotoService.get_photo_by_id: the row with the given primary key. -/
def get_photo_by_id (catalog : List Photo) (id : Nat) : Option Photo :=
  catalog.find? (fun p => p.id == id)

/-- The resolution loop of the delete handler: for each id in order, look the
photo up and append its thumbnail path then its original path; the first id
that does not resolve aborts the whole handler. -/
def resolveImagePaths (catalog : List Photo) (ids : List Nat) : Option (List String) :=
  match ids with
  | [] => some []
  | i :: rest =>
    match get_photo_by_id catalog i with
    | none => none
    | some p =>
      (resolveImagePaths catalog rest).map
        (fun ps => p.thumbnail_path :: p.original_path :: ps)

/-- The POST /admin/photos/delete handler with the development (local) store:
reject an empty id list with 400, abort with the 500 HTTPException on the
first id that does not resolve, otherwise batch-delete all collected paths
and answer with the error dictionary when any path failed, the success
dictionary otherwise.  No catalog row is ever removed. -/
def delete_photos (ids : List Nat) (s : SysState) : SysState × RouterDeleteResult :=
  if ids = [] then (s, .badRequest)
  else
    match resolveImagePaths s.catalog ids with
    | none => (s, .notFound500)
    | some paths =>
      let r := delete_images s.store paths
      if r.2.2 = [] then ({ s with store := r.1 }, .ok200)
      else ({ s with store := r.1 }, .errorReport r.2.2)

/-! ### AdminService._process_image thumbnail geometry

_process_image(file, size=(300, 300)) calls PIL's Image.thumbnail.  The byte
codec is outside the repository; the geometry PIL applies to the decoded
dimensions is modelled here exactly, with the float arithmetic of PIL carried
out in exact rational arithmetic: `round_aspect(number, key)` is
max(min(floor(number), ceil(number), key=key), 1) — Python's min picks the
first argument on a tie — and thumbnail keeps the image unchanged when it
already fits the bound, otherwise fixes one dimension at the bound and rounds
the other from the aspect ratio. -/

/-- PIL round_aspect: floor if its key is not larger than the ceiling's key,
else ceiling; clamped below by 1. -/
def round_aspect (n : ℚ) (keyFloor keyCeil : ℚ) : ℤ :=
  max (if keyFloor ≤ keyCeil then ⌊n⌋ else ⌈n⌉) 1

/-- PIL Image.thumbnail on an image of size (w, h) with bound (x, y). -/
def pil_thumbnail (w h : Nat) (x y : Nat) : Nat × Nat :=
  if w ≤ x ∧ h ≤ y then (w, h)
  else
    let aspect : ℚ := (w : ℚ) / (h : ℚ)
    if aspect ≤ (x : ℚ) / (y : ℚ) then
      let n : ℚ := (y : ℚ) * aspect
      let xr := round_aspect n |aspect - (⌊n⌋ : ℚ) / (y : ℚ)| |aspect - (⌈n⌉ : ℚ) / (y : ℚ)|
      (xr.toNat, y)
    else
      let n : ℚ := (x : ℚ) / aspect
      let yr := round_aspect n
        (if ⌊n⌋ = 0 then 0 else |aspect - (x : ℚ) / ((⌊n⌋ : ℤ) : ℚ)|)
        (if ⌈n⌉ = 0 then 0 else |aspect - (x : ℚ) / ((⌈n⌉ : ℤ) : ℚ)|)
      (x, yr.toNat)

/-- The dimensions of the thumbnail rendition produced by
AdminService._process_image with its fixed size = (300, 300). -/
def process_image_dims (w h : Nat) : Nat × Nat :=
  pil_thumbnail w h 300 300

/-! ## Theorems -/

/-- Claim C2: the delete route is claimed to remove a photo's catalog row
exactly when both of its storage paths are confirmed deleted.  Evaluating the
handler on a catalog holding one photo whose two blobs are both present and
both delete successfully (the store ends empty, the handler answers the
success dictionary): the catalog row is still there — the handler never
deletes catalog metadata, contradicting the claim, its own docstring ("Delete
selected photos from image store and metadata from db") and the repository's
test_delete_photos_success. -/
theorem delete_route_keeps_row_after_full_blob_removal :
    delete_photos [1]
      ⟨[⟨1, "t", "h", "f.jpeg", "uploads/original/f.jpeg", "uploads/thumbnail/f.jpeg", "nature"⟩],
       [("uploads/thumbnail/f.jpeg", [0]), ("uploads/original/f.jpeg", [0])]⟩
    = (⟨[⟨1, "t", "h", "f.jpeg", "uploads/original/f.jpeg", "uploads/thumbnail/f.jpeg", "nature"⟩],
        []⟩, .ok200) := by
  decide

/-- Claim C3, counterexample: on an id that resolves to no catalog row the
handler does not return a report with a not_found set — it aborts with the
500 "Photo not found in db" HTTPException. -/
theorem delete_route_unknown_id_raises_500 :
    delete_photos [999] ⟨[], []⟩ = (⟨[], []⟩, .notFound500) := by
  decide

/-- Claim C6: the repository's own test fixtures (test_get_all_photos_multiple
commits three rows all with collection "test") require `collection` to be
repeatable, and hash/file_name/original_path/thumbnail_path are each declared
unique — but schema.py also declares `collection` with unique=True, so the
second such insert conflicts: inserting a second row that differs everywhere
except `collection` raises IntegrityError. -/
theorem collection_column_declared_unique :
    (photoTable.find? (fun c => c.name == "hash")).map ColumnSpec.unique = some true ∧
    (photoTable.find? (fun c => c.name == "file_name")).map ColumnSpec.unique = some true ∧
    (photoTable.find? (fun c => c.name == "original_path")).map ColumnSpec.unique = some true ∧
    (photoTable.find? (fun c => c.name == "thumbnail_path")).map ColumnSpec.unique = some true ∧
    (photoTable.find? (fun c => c.name == "collection")).map ColumnSpec.unique = some true ∧
    insertConflict [⟨1, "p1", "hash1", "photo1.jpeg", "o1", "t1", "test"⟩]
      ⟨2, "p2", "hash2", "photo2.jpeg", "o2", "t2", "test"⟩ = true := by
  decide

/-- Claim C7, counterexample: an upload with no filename at all (and an
allowed content type) fails with exactly the same error value — same
exception class, same message — as an upload with a filename but a disallowed
content type, so the missing-filename failure is not a caller-distinguishable
category. -/
theorem missing_filename_indistinguishable_from_bad_type :
    validate 10 ⟨none, some "image/jpeg", [1]⟩
      = .error (.valueError "Unsupported file type") ∧
    validate 10 ⟨some "a.jpg", some "text/plain", [1]⟩
      = .error (.valueError "Unsupported file type") :=
  ⟨rfl, rfl⟩

/-- Claim C8, counterexample: sanitize_file does not replace every whitespace
character with an underscore — only spaces.  On the filename "a\tb.png" the
tab survives into the storage name, so the output still contains a whitespace
character. -/
theorem sanitize_file_keeps_tab :
    sanitize_file "a\tb.png".data "00000000".data = "a\tb_00000000.jpeg".data ∧
    '\t' ∈ sanitize_file "a\tb.png".data "00000000".data ∧
    ('\t').isWhitespace = true := by
  decide

/-- Claim C4, counterexample: the local batch delete classifies a path absent
from local disk as failed, not as already-deleted: deleting "a" against an
empty disk returns it in the errors partition and an empty success
partition. -/
theorem local_delete_missing_path_goes_to_errors :
    delete_images [] ["a"] = ([], [], ["a"]) ∧
    "a" ∉ (delete_images [] ["a"]).2.1 := by
  decide

lemma delete_images_perm (paths : List String) :
    ∀ st : Store,
      ((delete_images st paths).2.1 ++ (delete_images st paths).2.2).Perm paths := by
  induction paths with
  | nil => intro st; simp [delete_images]
  | cons p rest ih =>
    intro st
    by_cases hc : st.any (fun e => e.1 == p) = true
    · simp only [delete_images, hc, if_true, List.cons_append]
      exact ((ih _).cons p)
    · simp only [delete_images, hc, if_false, Bool.false_eq_true]
      exact List.perm_middle.trans ((ih st).cons p)

lemma delete_images_missing_failed (paths : List String) :
    ∀ (st : Store) (p : String), (∀ e ∈ st, e.1 ≠ p) → p ∈ paths →
      p ∈ (delete_images st paths).2.2 := by
  induction paths with
  | nil => intro st p _ hp; cases hp
  | cons q rest ih =>
    intro st p hmiss hp
    by_cases hc : st.any (fun e => e.1 == q) = true
    · have hqp : p ≠ q := by
        intro he
        rcases List.any_eq_true.mp hc with ⟨e, he1, he2⟩
        exact hmiss e he1 (by simpa [he] using he2)
      have hrest : p ∈ rest := by
        rcases List.mem_cons.mp hp with h | h
        · exact absurd h hqp
        · exact h
      simp only [delete_images, hc, if_true]
      exact ih _ p (fun e he => hmiss e (List.eraseP_subset _ he)) hrest
    · simp only [delete_images, hc, if_false, Bool.false_eq_true]
      rcases List.mem_cons.mp hp with h | h
      · exact h ▸ List.mem_cons_self _ _
      · exact List.mem_cons_of_mem _ (ih st p hmiss h)

/-- Claim C4, amended: the local batch delete never raises for an individual
path (it is a total function), always returns a strict partition of the input
paths into succeeded and failed, and classifies a path absent from local disk
as FAILED (it lands in the errors partition) rather than as already-deleted. -/
theorem local_delete_partition (st : Store) (paths : List String) :
    ((delete_images st paths).2.1 ++ (delete_images st paths).2.2).Perm paths ∧
    (∀ p, (∀ e ∈ st, e.1 ≠ p) → p ∈ paths → p ∈ (delete_images st paths).2.2) := by
  exact ⟨delete_images_perm paths st, fun p h hp => delete_images_missing_failed paths st p h hp⟩

/-- Witness for the amended C4 statement at a concrete disk and batch. -/
theorem local_delete_partition_witness :
    ((delete_images [("b", [0])] ["a", "b"]).2.1
      ++ (delete_images [("b", [0])] ["a", "b"]).2.2).Perm ["a", "b"] ∧
    "a" ∈ (delete_images [("b", [0])] ["a", "b"]).2.2 :=
  ⟨(local_delete_partition [("b", [0])] ["a", "b"]).1,
   (local_delete_partition [("b", [0])] ["a", "b"]).2 "a" (by decide) (by decide)⟩

lemma resolveImagePaths_eq_none (catalog : List Photo) (ids : List Nat)
    (h : ∃ i ∈ ids, get_photo_by_id catalog i = none) :
    resolveImagePaths catalog ids = none := by
  induction ids with
  | nil => rcases h with ⟨i, hi, _⟩; cases hi
  | cons j rest ih =>
    rcases h with ⟨i, hi, hnone⟩
    rcases List.mem_cons.mp hi with rfl | hmem
    · simp [resolveImagePaths, hnone]
    · rw [resolveImagePaths]
      cases hj : get_photo_by_id catalog j with
      | none => rfl
      | some p => rw [ih ⟨i, hmem, hnone⟩]; rfl

/-- Claim C3, amended: an id that does not resolve to a catalog row makes the
whole delete handler abort with the 500 "Photo not found in db" HTTPException
before any store deletion is attempted — the state comes back unchanged and
no report of not_found/deleted sets is produced. -/
theorem delete_route_aborts_on_unresolved (ids : List Nat) (s : SysState)
    (h : ∃ i ∈ ids, get_photo_by_id s.catalog i = none) :
    delete_photos ids s = (s, .notFound500) := by
  have hne : ids ≠ [] := by
    rcases h with ⟨i, hi, _⟩
    intro he
    rw [he] at hi
    cases hi
  rw [delete_photos, if_neg hne, resolveImagePaths_eq_none s.catalog ids h]

/-- Witness for the amended C3 statement: the first id resolves, the second
does not; the handler aborts with the 500 error and touches nothing. -/
theorem delete_route_aborts_on_unresolved_witness :
    delete_photos [1, 2]
      ⟨[⟨1, "t", "h", "f", "o", "tp", "c"⟩], [("tp", [0]), ("o", [0])]⟩
    = (⟨[⟨1, "t", "h", "f", "o", "tp", "c"⟩], [("tp", [0]), ("o", [0])]⟩, .notFound500) :=
  delete_route_aborts_on_unresolved [1, 2]
    ⟨[⟨1, "t", "h", "f", "o", "tp", "c"⟩], [("tp", [0]), ("o", [0])]⟩
    ⟨2, by decide, by decide⟩

lemma filter_hash_singleton (l : List Photo) (v : String)
    (hnd : (l.map Photo.hash).Nodup) (p : Photo) (hp : p ∈ l) (hv : p.hash = v) :
    l.filter (fun q => q.hash == v) = [p] := by
  induction l with
  | nil => cases hp
  | cons a l ih =>
    rw [List.map_cons, List.nodup_cons] at hnd
    rcases List.mem_cons.mp hp with rfl | hmem
    · rw [List.filter_cons, if_pos (by simpa using hv)]
      rw [List.filter_eq_nil_iff.mpr]
      intro q hq hqv
      exact hnd.1 (hv ▸ (beq_iff_eq.mp hqv) ▸ List.mem_map_of_mem Photo.hash hq)
    · have hav : ¬(a.hash == v) = true := by
        intro he
        exact hnd.1 ((beq_iff_eq.mp he) ▸ hv ▸ List.mem_map_of_mem Photo.hash hmem)
      rw [List.filter_cons, if_neg hav]
      exact ih hnd.2 hmem

/-- Claim C1: when a committed row already carries the digest of the upload
bytes (and the catalog satisfies the schema's hash-uniqueness invariant),
upload_photo fails with the duplicate error and the returned state is exactly
the input state: no thumbnail write, no original write, no catalog change. -/
theorem upload_duplicate_rejected_without_write
    (hashFn : List Byte → String) (thumbFn origFn : List Byte → List Byte)
    (title : String) (file_name : List Char) (file_data : List Byte)
    (collection : String) (suffix : List Char) (nextId : Nat) (s : SysState)
    (hinv : (s.catalog.map Photo.hash).Nodup)
    (hdup : ∃ p ∈ s.catalog, p.hash = hashFn file_data) :
    upload_photo hashFn thumbFn origFn title file_name file_data collection suffix nextId s
      = (s, .error .duplicatePhoto) := by
  rcases hdup with ⟨p, hp, hv⟩
  rw [upload_photo, filter_hash_singleton s.catalog (hashFn file_data) hinv p hp hv]
  rfl

/-- Witness for C1 at a one-row catalog whose row carries the upload's
digest. -/
theorem upload_duplicate_rejected_without_write_witness :
    upload_photo (fun _ => "h") (fun b => b) (fun b => b) "t2" ['x'] [7] "c2"
      ['0', '0', '0', '0', '0', '0', '0', '0'] 2
      ⟨[⟨1, "t", "h", "f", "o", "tp", "c"⟩], []⟩
    = (⟨[⟨1, "t", "h", "f", "o", "tp", "c"⟩], []⟩, .error .duplicatePhoto) :=
  upload_duplicate_rejected_without_write (fun _ => "h") (fun b => b) (fun b => b)
    "t2" ['x'] [7] "c2" ['0', '0', '0', '0', '0', '0', '0', '0'] 2
    ⟨[⟨1, "t", "h", "f", "o", "tp", "c"⟩], []⟩
    (by decide) ⟨⟨1, "t", "h", "f", "o", "tp", "c"⟩, by decide, rfl⟩

lemma take_length_add_drop_length (n : Nat) (l : List Byte) :
    (l.take n).length + (l.drop n).length = l.length := by
  simp [List.length_take, List.length_drop]
  omega

lemma readChunks_tooLarge (max_size : Nat) :
    ∀ (N : Nat) (data : List Byte) (total : Nat), data.length ≤ N → total ≤ max_size →
      max_size < total + data.length →
      readChunks data total max_size = .error (.imageTooLarge "Image too large") := by
  intro N
  induction N with
  | zero =>
    intro data total hN hle hlt
    have hdata : data = [] := List.length_eq_zero.mp (Nat.le_zero.mp hN)
    subst hdata
    simp at hlt
    omega
  | succ N ih =>
    intro data total hN hle hlt
    have hd : data ≠ [] := by
      intro he
      subst he
      simp at hlt
      omega
    rw [readChunks, dif_neg hd]
    by_cases hbig : total + (data.take chunkSize).length > max_size
    · rw [if_pos hbig]
    · rw [if_neg hbig]
      have hsum := take_length_add_drop_length chunkSize data
      have hpos : 0 < data.length := List.length_pos.mpr hd
      have hcs : 0 < chunkSize := by norm_num [chunkSize]
      have h1 : (data.drop chunkSize).length ≤ N := by
        rw [List.length_drop]
        omega
      have h2 : total + (data.take chunkSize).length ≤ max_size := by omega
      have h3 : max_size < (total + (data.take chunkSize).length) + (data.drop chunkSize).length := by
        omega
      rw [ih (data.drop chunkSize) (total + (data.take chunkSize).length) h1 h2 h3]

lemma readChunks_ok (max_size : Nat) :
    ∀ (N : Nat) (data : List Byte) (total : Nat), data.length ≤ N →
      total + data.length ≤ max_size → (total = 0 → data ≠ []) →
      ∃ cs, readChunks data total max_size = .ok cs ∧ cs.flatten = data := by
  intro N
  induction N with
  | zero =>
    intro data total hN _ hguard
    have hdata : data = [] := List.length_eq_zero.mp (Nat.le_zero.mp hN)
    subst hdata
    have ht : ¬(total = 0) := fun h0 => (hguard h0) rfl
    refine ⟨[], ?_, rfl⟩
    rw [readChunks, dif_pos rfl, if_neg ht]
  | succ N ih =>
    intro data total hN hle hguard
    by_cases hd : data = []
    · subst hd
      have ht : ¬(total = 0) := fun h0 => (hguard h0) rfl
      refine ⟨[], ?_, rfl⟩
      rw [readChunks, dif_pos rfl, if_neg ht]
    · have hsum := take_length_add_drop_length chunkSize data
      have hpos : 0 < data.length := List.length_pos.mpr hd
      have hcs : 0 < chunkSize := by norm_num [chunkSize]
      have htake : data.take chunkSize ≠ [] := by
        intro he
        have : (data.take chunkSize).length = 0 := by rw [he]; rfl
        rw [List.length_take] at this
        omega
      have hlen_pos : 0 < (data.take chunkSize).length := List.length_pos.mpr htake
      have hnb : ¬(total + (data.take chunkSize).length > max_size) := by omega
      have h1 : (data.drop chunkSize).length ≤ N := by
        rw [List.length_drop]
        omega
      have h2 : (total + (data.take chunkSize).length) + (data.drop chunkSize).length ≤ max_size := by
        omega
      have h3 : total + (data.take chunkSize).length = 0 → data.drop chunkSize ≠ [] := by
        intro h0
        exact absurd h0 (by omega)
      obtain ⟨cs, hcs1, hcs2⟩ := ih (data.drop chunkSize) (total + (data.take chunkSize).length) h1 h2 h3
      refine ⟨data.take chunkSize :: cs, ?_, ?_⟩
      · rw [readChunks, dif_neg hd, if_neg hnb, hcs1]
      · rw [List.flatten_cons, hcs2, List.take_append_drop]

/-- Claim C5: the streaming size check fails with the ImageDoesNotExist
("empty") error exactly on a zero-byte body; it fails with the ImageTooLarge
error whenever the body exceeds max_size — and its outcome on any body is
already determined by the first max_size + one-chunk bytes, so the remainder
of an oversized stream is never buffered; on any other body it returns the
concatenation of all chunks, i.e. the full upload bytes. -/
theorem check_file_size_spec (max_size : Nat) (data : List Byte) :
    (data = [] → check_file_size max_size data = .error (.imageDoesNotExist "Image has no data")) ∧
    (max_size < data.length → check_file_size max_size data = .error (.imageTooLarge "Image too large")) ∧
    (data ≠ [] → data.length ≤ max_size → check_file_size max_size data = .ok data) ∧
    check_file_size max_size data = check_file_size max_size (data.take (max_size + chunkSize)) := by
  refine ⟨?_, ?_, ?_, ?_⟩
  · intro h
    subst h
    have hrc : readChunks [] 0 max_size = .error (.imageDoesNotExist "Image has no data") := by
      rw [readChunks]
      simp
    simp only [check_file_size, hrc]
  · intro h
    have hrc := readChunks_tooLarge max_size data.length data 0 le_rfl (Nat.zero_le _) (by omega)
    simp only [check_file_size, hrc]
  · intro hne hle
    obtain ⟨cs, h1, h2⟩ := readChunks_ok max_size data.length data 0 le_rfl (by omega) (fun _ => hne)
    simp only [check_file_size, h1, h2]
  · by_cases hle : data.length ≤ max_size
    · rw [List.take_of_length_le (by omega)]
    · have hcs : 0 < chunkSize := by norm_num [chunkSize]
      have h1 := readChunks_tooLarge max_size data.length data 0 le_rfl (Nat.zero_le _) (by omega)
      have h2 := readChunks_tooLarge max_size (data.take (max_size + chunkSize)).length
        (data.take (max_size + chunkSize)) 0 le_rfl (Nat.zero_le _) (by
          rw [List.length_take]
          omega)
      simp only [check_file_size, h1, h2]

/-- Witness for C5: with max_size = 1 a two-byte body is rejected as too
large, an empty body as empty; with max_size = 2 the same two-byte body is
returned whole. -/
theorem check_file_size_spec_witness :
    check_file_size 1 [5, 6] = .error (.imageTooLarge "Image too large") ∧
    check_file_size 1 ([] : List Byte) = .error (.imageDoesNotExist "Image has no data") ∧
    check_file_size 2 [5, 6] = .ok [5, 6] :=
  ⟨(check_file_size_spec 1 [5, 6]).2.1 (by decide),
   (check_file_size_spec 1 []).1 rfl,
   (check_file_size_spec 2 [5, 6]).2.2.1 (by decide) (by decide)⟩

/-- Claim C7, amended: an upload with no filename (None or empty) is
rejected, but with the very ValueError("Unsupported file type") that a
disallowed content type produces — the code has no separate
missing-filename error category. -/
theorem missing_filename_rejected_with_shared_error (max_size : Nat)
    (ct : Option String) (data : List Byte) (g : String) (hg : g ≠ "")
    (ct2 : String) (hct2 : ct2 ∉ valid_types) (data2 : List Byte) :
    validate max_size ⟨none, ct, data⟩ = .error (.valueError "Unsupported file type") ∧
    validate max_size ⟨some "", ct, data⟩ = .error (.valueError "Unsupported file type") ∧
    validate max_size ⟨some g, some ct2, data2⟩ = .error (.valueError "Unsupported file type") := by
  refine ⟨rfl, rfl, ?_⟩
  rw [validate, if_pos]
  simp [check_exist, check_file_type, hg, hct2]

/-- Witness for the amended C7 statement. -/
theorem missing_filename_rejected_with_shared_error_witness :
    validate 10 ⟨none, some "image/png", [1]⟩
      = .error (.valueError "Unsupported file type") ∧
    validate 10 ⟨some "", some "image/png", [1]⟩
      = .error (.valueError "Unsupported file type") ∧
    validate 10 ⟨some "b.png", some "application/pdf", [2]⟩
      = .error (.valueError "Unsupported file type") :=
  missing_filename_rejected_with_shared_error 10 (some "image/png") [1] "b.png"
    (by decide) "application/pdf" (by decide) [2]

lemma takeWhile_ne_slash_eq_self (l : List Char) (h : ∀ c ∈ l, c ≠ '/') :
    l.takeWhile (fun c => c ≠ '/') = l := by
  induction l with
  | nil => rfl
  | cons c rest ih =>
    rw [List.takeWhile_cons, if_pos (by simpa using h c (List.mem_cons_self _ _)),
      ih (fun d hd => h d (List.mem_cons_of_mem _ hd))]

lemma pyName_no_slash (s : List Char) (hs : '/' ∉ s) : pyName s = s := by
  unfold pyName
  have hall : ∀ c ∈ s.reverse, c ≠ '/' := by
    intro c hc he
    exact hs (he ▸ List.mem_reverse.mp hc)
  have h1 : s.reverse.dropWhile (fun c => c = '/') = s.reverse := by
    cases hr : s.reverse with
    | nil => rfl
    | cons c rest =>
      rw [List.dropWhile_cons]
      have hc : c ≠ '/' := hall c (hr ▸ List.mem_cons_self _ _)
      simp [hc]
  rw [h1, takeWhile_ne_slash_eq_self s.reverse hall, List.reverse_reverse]

lemma indexOf?_dot_of_not_mem (l : List Char) (h : '.' ∉ l) :
    l.indexOf? '.' = none :=
  List.indexOf?_eq_none_iff.mpr
    (fun x hx he => h ((beq_iff_eq.mp he) ▸ hx))

lemma indexOf?_dot_append (l₁ l₂ : List Char) (h : '.' ∉ l₁) :
    (l₁ ++ '.' :: l₂).indexOf? '.' = some l₁.length := by
  induction l₁ with
  | nil => simp [List.indexOf?_cons]
  | cons c rest ih =>
    have hc : ¬((c == '.') = true) := by
      intro he
      exact h ((beq_iff_eq.mp he) ▸ List.mem_cons_self _ _)
    rw [List.cons_append, List.indexOf?_cons, if_neg hc,
      ih (fun hm => h (List.mem_cons_of_mem _ hm))]
    rfl

lemma pyStem_strips_single_extension (base ext : List Char) (hb : base ≠ [])
    (hbd : '.' ∉ base) (hbs : '/' ∉ base) (he : ext ≠ []) (hed : '.' ∉ ext)
    (hes : '/' ∉ ext) :
    pyStem (base ++ '.' :: ext) = base := by
  have hs : '/' ∉ base ++ '.' :: ext := by
    intro hm
    rcases List.mem_append.mp hm with h | h
    · exact hbs h
    · rcases List.mem_cons.mp h with h | h
      · cases h
      · exact hes h
  have hlen : (base ++ '.' :: ext).length = base.length + (ext.length + 1) := by
    rw [List.length_append, List.length_cons]
  have hrev : (base ++ '.' :: ext).reverse = ext.reverse ++ '.' :: base.reverse := by
    simp
  have hidx : lastDotIdx (base ++ '.' :: ext) = some base.length := by
    unfold lastDotIdx
    rw [hrev, indexOf?_dot_append ext.reverse base.reverse (by simpa using hed)]
    show some ((base ++ '.' :: ext).length - 1 - ext.reverse.length) = some base.length
    rw [hlen, List.length_reverse]
    congr 1
    omega
  have hbpos : 0 < base.length := List.length_pos.mpr hb
  have hepos : 0 < ext.length := List.length_pos.mpr he
  unfold pyStem
  rw [pyName_no_slash _ hs, hidx]
  show (if 0 < base.length ∧ base.length + 1 < (base ++ '.' :: ext).length
    then (base ++ '.' :: ext).take base.length else base ++ '.' :: ext) = base
  rw [if_pos ⟨hbpos, by rw [hlen]; omega⟩]
  exact List.take_left base ('.' :: ext)

lemma pyStem_no_dot (base : List Char) (hbd : '.' ∉ base) (hbs : '/' ∉ base) :
    pyStem base = base := by
  unfold pyStem lastDotIdx
  rw [pyName_no_slash _ hbs,
    indexOf?_dot_of_not_mem base.reverse (by simpa using hbd)]

lemma sanitize_file_length_le (name suffix : List Char) (h8 : suffix.length = 8) :
    (sanitize_file name suffix).length ≤ 64 := by
  unfold sanitize_file
  simp [List.length_take, h8]

lemma sanitize_file_length_ge (name suffix : List Char) (h8 : suffix.length = 8) :
    14 ≤ (sanitize_file name suffix).length := by
  unfold sanitize_file
  simp [h8]

lemma sanitize_file_ends_jpeg (name suffix : List Char) :
    (".jpeg".data).IsSuffix (sanitize_file name suffix) :=
  ⟨((pyStem name).map spaceToUnderscore).take 50 ++ ('_' :: suffix), rfl⟩

lemma sanitize_file_no_space (name suffix : List Char)
    (hhex : ∀ c ∈ suffix, isHexChar c = true) :
    ' ' ∉ sanitize_file name suffix := by
  unfold sanitize_file
  intro hmem
  rcases List.mem_append.mp hmem with h | h
  · rcases List.mem_append.mp h with h1 | h1
    · have h2 : ' ' ∈ (pyStem name).map spaceToUnderscore := List.take_subset _ _ h1
      rcases List.mem_map.mp h2 with ⟨c, _, hc⟩
      unfold spaceToUnderscore at hc
      by_cases hcs : c = ' '
      · rw [if_pos hcs] at hc
        cases hc
      · rw [if_neg hcs] at hc
        exact hcs hc
    · rcases List.mem_cons.mp h1 with h2 | h2
      · cases h2
      · exact absurd (hhex ' ' h2) (by decide)
  · exact absurd h (by decide)

lemma sanitize_file_suffix_injective (name s1 s2 : List Char) (hne : s1 ≠ s2) :
    sanitize_file name s1 ≠ sanitize_file name s2 := by
  intro he
  unfold sanitize_file at he
  have h1 := List.append_cancel_right he
  have h2 := List.append_cancel_left h1
  injection h2 with h3 h4
  exact hne h4

/-- Claim C8, amended: sanitize_file strips (only) the last extension of the
filename, replaces space characters — not all whitespace — with underscores,
truncates the stem to at most 50 characters (so the whole storage name is at
most 64 characters for an 8-character suffix), and appends an underscore, the
8-hex-character random suffix and the fixed ".jpeg" extension; two calls on
the same input whose random suffixes differ yield different storage names
(two calls with colliding random suffixes yield the same name, so distinctness
holds only up to the randomness of uuid4). -/
theorem sanitize_file_spec (name suffix suffix2 : List Char) (h8 : suffix.length = 8)
    (hhex : ∀ c ∈ suffix, isHexChar c = true) (hne : suffix ≠ suffix2) :
    (∀ base ext : List Char,
      base ≠ [] → '.' ∉ base → '/' ∉ base → ext ≠ [] → '.' ∉ ext → '/' ∉ ext →
      sanitize_file (base ++ '.' :: ext) suffix = sanitize_file base suffix) ∧
    ' ' ∉ sanitize_file name suffix ∧
    (sanitize_file name suffix).length ≤ 64 ∧
    (".jpeg".data).IsSuffix (sanitize_file name suffix) ∧
    sanitize_file name suffix ≠ sanitize_file name suffix2 := by
  refine ⟨?_, sanitize_file_no_space name suffix hhex,
    sanitize_file_length_le name suffix h8,
    sanitize_file_ends_jpeg name suffix,
    sanitize_file_suffix_injective name suffix suffix2 hne⟩
  intro base ext hb hbd hbs he hed hes
  unfold sanitize_file
  rw [pyStem_strips_single_extension base ext hb hbd hbs he hed hes,
    pyStem_no_dot base hbd hbs]

/-- Witness for the amended C8 statement on the spec's own example
filename. -/
theorem sanitize_file_spec_witness :
    sanitize_file "photo.png".data "00000000".data
      = sanitize_file "photo".data "00000000".data ∧
    ' ' ∉ sanitize_file "My Photo.png".data "00000000".data ∧
    sanitize_file "My Photo.png".data "00000000".data
      ≠ sanitize_file "My Photo.png".data "00000001".data :=
  ⟨(sanitize_file_spec "My Photo.png".data "00000000".data "00000001".data
      (by decide) (by decide) (by decide)).1 "photo".data "png".data
      (by decide) (by decide) (by decide) (by decide) (by decide) (by decide),
   (sanitize_file_spec "My Photo.png".data "00000000".data "00000001".data
      (by decide) (by decide) (by decide)).2.1,
   (sanitize_file_spec "My Photo.png".data "00000000".data "00000001".data
      (by decide) (by decide) (by decide)).2.2.2.2⟩

/-- Claim C10: every storage name ends in ".jpeg" and is between 14 and 64
characters long (empty stem: "_" + 8 + ".jpeg" = 14; full stem: 50 + 14 =
64), while the Photo.file_name column is declared String(length=50) — and
some inputs produce storage names longer than that declared bound. -/
theorem sanitize_file_length_vs_column (name suffix : List Char) (h8 : suffix.length = 8) :
    (".jpeg".data).IsSuffix (sanitize_file name suffix) ∧
    14 ≤ (sanitize_file name suffix).length ∧
    (sanitize_file name suffix).length ≤ 64 ∧
    photoFileNameMaxLen = 50 ∧
    (∃ n2 s2 : List Char, s2.length = 8 ∧
      photoFileNameMaxLen < (sanitize_file n2 s2).length) := by
  refine ⟨sanitize_file_ends_jpeg name suffix,
    sanitize_file_length_ge name suffix h8,
    sanitize_file_length_le name suffix h8, by decide, ?_⟩
  exact ⟨List.replicate 40 'a', List.replicate 8 '0', by decide, by decide⟩

/-- Witness for C10. -/
theorem sanitize_file_length_vs_column_witness :
    (".jpeg".data).IsSuffix (sanitize_file "x.png".data "00000000".data) ∧
    14 ≤ (sanitize_file "x.png".data "00000000".data).length :=
  ⟨(sanitize_file_length_vs_column "x.png".data "00000000".data (by decide)).1,
   (sanitize_file_length_vs_column "x.png".data "00000000".data (by decide)).2.1⟩

lemma round_aspect_cases (n kf kc : ℚ) :
    round_aspect n kf kc = max ⌊n⌋ 1 ∨ round_aspect n kf kc = max ⌈n⌉ 1 := by
  unfold round_aspect
  by_cases h : kf ≤ kc
  · left
    rw [if_pos h]
  · right
    rw [if_neg h]

lemma round_aspect_one_le (n kf kc : ℚ) : 1 ≤ round_aspect n kf kc :=
  le_max_right _ _

lemma round_aspect_le (n kf kc : ℚ) (z : ℤ) (h1 : 1 ≤ z) (hn : n ≤ (z : ℚ)) :
    round_aspect n kf kc ≤ z := by
  rcases round_aspect_cases n kf kc with h | h <;> rw [h]
  · refine max_le ?_ h1
    have := Int.floor_le_floor hn
    rwa [Int.floor_intCast] at this
  · exact max_le (Int.ceil_le.mpr hn) h1

lemma round_aspect_near (n kf kc : ℚ) (hn : 0 < n) :
    |(round_aspect n kf kc : ℚ) - n| ≤ 1 := by
  have hfl : (⌊n⌋ : ℚ) ≤ n := Int.floor_le n
  have hfl2 : n < ⌊n⌋ + 1 := Int.lt_floor_add_one n
  have hcl : n ≤ (⌈n⌉ : ℚ) := Int.le_ceil n
  have hcl2 : (⌈n⌉ : ℚ) < n + 1 := Int.ceil_lt_add_one n
  rcases round_aspect_cases n kf kc with h | h <;> rw [h]
  · by_cases hge : 1 ≤ ⌊n⌋
    · rw [max_eq_left hge, abs_le]
      constructor <;> linarith
    · push_neg at hge
      have h0 : (⌊n⌋ : ℚ) ≤ 0 := by exact_mod_cast (by omega : ⌊n⌋ ≤ 0)
      rw [max_eq_right (by omega : ⌊n⌋ ≤ 1), abs_le]
      push_cast
      constructor <;> linarith
  · have h1 : 1 ≤ ⌈n⌉ := by
      have := Int.ceil_pos.mpr hn
      omega
    rw [max_eq_left h1, abs_le]
    constructor <;> linarith

lemma pil_thumbnail_fits (w h x y : Nat) (h1 : w ≤ x) (h2 : h ≤ y) :
    pil_thumbnail w h x y = (w, h) := by
  unfold pil_thumbnail
  rw [if_pos ⟨h1, h2⟩]

lemma pil_thumbnail_branch1 (w h x y : Nat) (hb : ¬(w ≤ x ∧ h ≤ y))
    (hasp : (w : ℚ) / (h : ℚ) ≤ (x : ℚ) / (y : ℚ)) :
    pil_thumbnail w h x y
      = ((round_aspect ((y : ℚ) * ((w : ℚ) / (h : ℚ)))
          |(w : ℚ) / (h : ℚ) - (⌊(y : ℚ) * ((w : ℚ) / (h : ℚ))⌋ : ℚ) / (y : ℚ)|
          |(w : ℚ) / (h : ℚ) - (⌈(y : ℚ) * ((w : ℚ) / (h : ℚ))⌉ : ℚ) / (y : ℚ)|).toNat,
         y) := by
  simp only [pil_thumbnail, hb, if_false, hasp, if_true]

lemma pil_thumbnail_branch2 (w h x y : Nat) (hb : ¬(w ≤ x ∧ h ≤ y))
    (hasp : ¬((w : ℚ) / (h : ℚ) ≤ (x : ℚ) / (y : ℚ))) :
    pil_thumbnail w h x y
      = (x, (round_aspect ((x : ℚ) / ((w : ℚ) / (h : ℚ)))
          (if ⌊(x : ℚ) / ((w : ℚ) / (h : ℚ))⌋ = 0 then 0
            else |(w : ℚ) / (h : ℚ) - (x : ℚ) / ((⌊(x : ℚ) / ((w : ℚ) / (h : ℚ))⌋ : ℤ) : ℚ)|)
          (if ⌈(x : ℚ) / ((w : ℚ) / (h : ℚ))⌉ = 0 then 0
            else |(w : ℚ) / (h : ℚ) - (x : ℚ) / ((⌈(x : ℚ) / ((w : ℚ) / (h : ℚ))⌉ : ℤ) : ℚ)|)).toNat) := by
  simp only [pil_thumbnail, hb, if_false, hasp, if_true]

lemma thumbnail_conclusion_branch1 (w h : Nat) (r : ℤ) (hw : 0 < w) (hh : 0 < h)
    (hhg : 300 < h) (hsmall : ¬(w ≤ 300 ∧ h ≤ 300))
    (hr1 : 1 ≤ r) (hr300 : r ≤ 300) (hrw : r ≤ (w : ℤ))
    (hnear : |(r : ℚ) - ((300 : Nat) : ℚ) * ((w : ℚ) / (h : ℚ))| ≤ 1) :
    r.toNat ≤ 300 ∧ (300 : Nat) ≤ 300 ∧ r.toNat ≤ w ∧ (300 : Nat) ≤ h ∧
    (w ≤ 300 → h ≤ 300 → ((r.toNat, (300 : Nat)) : Nat × Nat) = (w, h)) ∧
    |((r.toNat : ℤ)) * h - w * (((300 : Nat) : ℤ))| ≤ (max w h : ℤ) := by
  have hh' : (0 : ℚ) < h := by exact_mod_cast hh
  have hhne : (h : ℚ) ≠ 0 := ne_of_gt hh'
  refine ⟨Int.toNat_le.mpr (by exact_mod_cast hr300), le_rfl, Int.toNat_le.mpr hrw,
    by omega, fun h1 h2 => absurd ⟨h1, h2⟩ hsmall, ?_⟩
  rw [Int.toNat_of_nonneg (by omega : (0 : ℤ) ≤ r),
    (by norm_num : (((300 : Nat) : ℤ)) = (300 : ℤ))]
  have hq : |(r : ℚ) * h - w * 300| ≤ (h : ℚ) := by
    have h1 : |((r : ℚ) - ((300 : Nat) : ℚ) * ((w : ℚ) / (h : ℚ))) * (h : ℚ)| ≤ 1 * (h : ℚ) := by
      rw [abs_mul, abs_of_pos hh']
      exact mul_le_mul_of_nonneg_right hnear (le_of_lt hh')
    have h2 : ((r : ℚ) - ((300 : Nat) : ℚ) * ((w : ℚ) / (h : ℚ))) * (h : ℚ)
        = (r : ℚ) * h - w * 300 := by
      field_simp
      ring
    rw [h2, one_mul] at h1
    exact h1
  have hz : |r * (h : ℤ) - (w : ℤ) * 300| ≤ (h : ℤ) := by
    have hcast : |((r * (h : ℤ) - (w : ℤ) * 300 : ℤ) : ℚ)| ≤ ((h : ℤ) : ℚ) := by
      push_cast
      exact_mod_cast hq
    rw [← Int.cast_abs] at hcast
    exact_mod_cast hcast
  calc |r * (h : ℤ) - (w : ℤ) * 300| ≤ (h : ℤ) := hz
    _ ≤ max (w : ℤ) (h : ℤ) := le_max_right _ _

lemma thumbnail_conclusion_branch2 (w h : Nat) (r : ℤ) (hw : 0 < w) (hh : 0 < h)
    (hwg : 300 < w) (hsmall : ¬(w ≤ 300 ∧ h ≤ 300))
    (hr1 : 1 ≤ r) (hr300 : r ≤ 300) (hrh : r ≤ (h : ℤ))
    (hnear : |(r : ℚ) - ((300 : Nat) : ℚ) / ((w : ℚ) / (h : ℚ))| ≤ 1) :
    (300 : Nat) ≤ 300 ∧ r.toNat ≤ 300 ∧ (300 : Nat) ≤ w ∧ r.toNat ≤ h ∧
    (w ≤ 300 → h ≤ 300 → (((300 : Nat), r.toNat) : Nat × Nat) = (w, h)) ∧
    |(((300 : Nat) : ℤ)) * h - w * ((r.toNat : ℤ))| ≤ (max w h : ℤ) := by
  have hw' : (0 : ℚ) < w := by exact_mod_cast hw
  have hh' : (0 : ℚ) < h := by exact_mod_cast hh
  have hwne : (w : ℚ) ≠ 0 := ne_of_gt hw'
  have hhne : (h : ℚ) ≠ 0 := ne_of_gt hh'
  refine ⟨le_rfl, Int.toNat_le.mpr (by exact_mod_cast hr300), by omega,
    Int.toNat_le.mpr hrh, fun h1 h2 => absurd ⟨h1, h2⟩ hsmall, ?_⟩
  rw [Int.toNat_of_nonneg (by omega : (0 : ℤ) ≤ r),
    (by norm_num : (((300 : Nat) : ℤ)) = (300 : ℤ))]
  have hq : |(r : ℚ) * w - h * 300| ≤ (w : ℚ) := by
    have h1 : |((r : ℚ) - ((300 : Nat) : ℚ) / ((w : ℚ) / (h : ℚ))) * (w : ℚ)| ≤ 1 * (w : ℚ) := by
      rw [abs_mul, abs_of_pos hw']
      exact mul_le_mul_of_nonneg_right hnear (le_of_lt hw')
    have h2 : ((r : ℚ) - ((300 : Nat) : ℚ) / ((w : ℚ) / (h : ℚ))) * (w : ℚ)
        = (r : ℚ) * w - h * 300 := by
      rw [div_div_eq_mul_div]
      field_simp
      ring
    rw [h2, one_mul] at h1
    exact h1
  have hz : |r * (w : ℤ) - (h : ℤ) * 300| ≤ (w : ℤ) := by
    have hcast : |((r * (w : ℤ) - (h : ℤ) * 300 : ℤ) : ℚ)| ≤ ((w : ℤ) : ℚ) := by
      push_cast
      exact_mod_cast hq
    rw [← Int.cast_abs] at hcast
    exact_mod_cast hcast
  have hswap : (300 : ℤ) * (h : ℤ) - (w : ℤ) * r = -(r * (w : ℤ) - (h : ℤ) * 300) := by
    ring
  rw [hswap, abs_neg]
  calc |r * (w : ℤ) - (h : ℤ) * 300| ≤ (w : ℤ) := hz
    _ ≤ max (w : ℤ) (h : ℤ) := le_max_left _ _

/-- Claim C9: the thumbnail dimensions produced by _process_image's fixed
(300, 300) bound never exceed 300 in either direction, never exceed the input
dimensions (no upscaling), leave an image that already fits 300 x 300
unchanged, and preserve the aspect ratio up to the integer rounding of one
dimension: the cross products of the two aspect ratios differ by at most
max w h. -/
theorem thumbnail_dims_spec (w h : Nat) (hw : 0 < w) (hh : 0 < h) :
    (process_image_dims w h).1 ≤ 300 ∧ (process_image_dims w h).2 ≤ 300 ∧
    (process_image_dims w h).1 ≤ w ∧ (process_image_dims w h).2 ≤ h ∧
    (w ≤ 300 → h ≤ 300 → process_image_dims w h = (w, h)) ∧
    |((process_image_dims w h).1 : ℤ) * h - w * (process_image_dims w h).2|
      ≤ (max w h : ℤ) := by
  have hw' : (0 : ℚ) < w := by exact_mod_cast hw
  have hh' : (0 : ℚ) < h := by exact_mod_cast hh
  have h300 : (((300 : Nat) : ℚ)) / (((300 : Nat) : ℚ)) = 1 := by norm_num
  by_cases hsmall : w ≤ 300 ∧ h ≤ 300
  · rw [process_image_dims, pil_thumbnail_fits w h 300 300 hsmall.1 hsmall.2]
    refine ⟨hsmall.1, hsmall.2, le_rfl, le_rfl, fun _ _ => rfl, ?_⟩
    rw [mul_comm, sub_self, abs_zero]
    exact_mod_cast Nat.zero_le _
  · by_cases hasp : (w : ℚ) / (h : ℚ) ≤ (((300 : Nat) : ℚ)) / (((300 : Nat) : ℚ))
    · -- width-adjusting branch: w ≤ h, so h must exceed 300
      have hA1 : (w : ℚ) / (h : ℚ) ≤ 1 := by rwa [h300] at hasp
      have hwh : w ≤ h := by exact_mod_cast (div_le_one hh').mp hA1
      have hhg : 300 < h := by
        rcases Nat.lt_or_ge 300 h with hc | hc
        · exact hc
        · exact absurd ⟨by omega, hc⟩ hsmall
      have hn0 : (0 : ℚ) < ((300 : Nat) : ℚ) * ((w : ℚ) / (h : ℚ)) := by positivity
      have hn300 : ((300 : Nat) : ℚ) * ((w : ℚ) / (h : ℚ)) ≤ ((300 : ℤ) : ℚ) := by
        push_cast
        nlinarith
      have hnw : ((300 : Nat) : ℚ) * ((w : ℚ) / (h : ℚ)) ≤ (((w : ℤ)) : ℚ) := by
        rw [mul_div_assoc', div_le_iff₀ hh']
        push_cast
        have hch : (300 : ℚ) ≤ (h : ℚ) := by exact_mod_cast Nat.le_of_lt hhg
        nlinarith
      rw [process_image_dims, pil_thumbnail_branch1 w h 300 300 hsmall hasp]
      exact thumbnail_conclusion_branch1 w h _ hw hh hhg hsmall
        (round_aspect_one_le _ _ _)
        (round_aspect_le _ _ _ 300 (by norm_num) hn300)
        (round_aspect_le _ _ _ (w : ℤ) (by exact_mod_cast hw) hnw)
        (round_aspect_near _ _ _ hn0)
    · -- height-adjusting branch: h < w, so w must exceed 300
      have hA1 : (1 : ℚ) < (w : ℚ) / (h : ℚ) := by
        rw [h300] at hasp
        exact lt_of_not_le hasp
      have hwh : h < w := by
        by_contra hc
        push_neg at hc
        have : (w : ℚ) / (h : ℚ) ≤ 1 := (div_le_one hh').mpr (by exact_mod_cast hc)
        linarith
      have hwg : 300 < w := by
        rcases Nat.lt_or_ge 300 w with hc | hc
        · exact hc
        · exact absurd ⟨hc, by omega⟩ hsmall
      have hn0 : (0 : ℚ) < ((300 : Nat) : ℚ) / ((w : ℚ) / (h : ℚ)) := by positivity
      have hneq : ((300 : Nat) : ℚ) / ((w : ℚ) / (h : ℚ))
          = ((300 : Nat) : ℚ) * (h : ℚ) / (w : ℚ) := by
        field_simp
      have hhw : (h : ℚ) ≤ (w : ℚ) := by exact_mod_cast Nat.le_of_lt hwh
      have hn300 : ((300 : Nat) : ℚ) / ((w : ℚ) / (h : ℚ)) ≤ ((300 : ℤ) : ℚ) := by
        rw [hneq, div_le_iff₀ hw']
        push_cast
        nlinarith
      have hnh : ((300 : Nat) : ℚ) / ((w : ℚ) / (h : ℚ)) ≤ (((h : ℤ)) : ℚ) := by
        rw [hneq, div_le_iff₀ hw']
        push_cast
        have hcw : (300 : ℚ) ≤ (w : ℚ) := by exact_mod_cast Nat.le_of_lt hwg
        nlinarith
      rw [process_image_dims, pil_thumbnail_branch2 w h 300 300 hsmall hasp]
      exact thumbnail_conclusion_branch2 w h _ hw hh hwg hsmall
        (round_aspect_one_le _ _ _)
        (round_aspect_le _ _ _ 300 (by norm_num) hn300)
        (round_aspect_le _ _ _ (h : ℤ) (by exact_mod_cast hh) hnh)
        (round_aspect_near _ _ _ hn0)

/-- Witness for C9 on a 600 x 400 input: the thumbnail respects the 300-pixel
bound, does not upscale, and its cross products with the input differ by at
most 600. -/
theorem thumbnail_dims_spec_witness :
    (process_image_dims 600 400).1 ≤ 300 ∧ (process_image_dims 600 400).2 ≤ 400 ∧
    |((process_image_dims 600 400).1 : ℤ) * 400 - 600 * (process_image_dims 600 400).2|
      ≤ (max 600 400 : ℤ) :=
  ⟨(thumbnail_dims_spec 600 400 (by decide) (by decide)).1,
   (thumbnail_dims_spec 600 400 (by decide) (by decide)).2.2.2.1,
   (thumbnail_dims_spec 600 400 (by decide) (by decide)).2.2.2.2.2⟩

end Portfolio
